import Mathlib

/-!
Verification of the Unity MCP bridge engine (`mcpServer/src/websocketHandler.ts`
and `mcpServer/src/types.ts`), as a shallow embedding in Lean.

The embedding models the mutable handler state (`WebSocketHandler` fields) as an
explicit structure, its methods as pure state-transformers that additionally
return the list of caller-visible effects they perform (sends, promise
resolutions, promise rejections), and JavaScript runtime details (record
key deletion, array `slice` with negative start, string truthiness, `Date`
parsing) as explicit total functions.
-/

namespace UnityMCP

/-! ### Data model and operations, translated from the source -/

/-- A Unity log entry (`LogEntry` in `types.ts`). -/
structure LogEntry where
  message : String
  stackTrace : String
  logType : String
  timestamp : String
  deriving DecidableEq, Repr

/-- `maxLogBufferSize` field of `WebSocketHandler` (1000). -/
def maxLogBufferSize : Nat := 1000

/-- `addLogEntry`: push the entry, then drop the oldest (`shift()`) if the
buffer exceeds `maxLogBufferSize`. -/
def addLogEntry (buffer : List LogEntry) (e : LogEntry) : List LogEntry :=
  let b := buffer ++ [e]
  if maxLogBufferSize < b.length then b.tail else b

/-- The suffix of the last `n` elements of a list. -/
def lastN (n : Nat) (l : List α) : List α :=
  l.drop (l.length - n)

/-- Generalization of `addLogEntry` over the capacity, for the proofs. -/
def pushBounded (n : Nat) (buffer : List α) (e : α) : List α :=
  let b := buffer ++ [e]
  if n < b.length then b.tail else b

/-- The value stored in `pendingRequests[requestId]` by `makeUnityRequest`:
the request `type` and the designated result field of the eventual response
(the stored `resolve` closure resolves with `data[resultField]`). -/
structure PendingEntry where
  reqType : String
  resultField : String
  deriving DecidableEq, Repr

/-- String-keyed record lookup (JavaScript `obj[key]`). -/
def lookupStr {β : Type} : List (String × β) → String → Option β
  | [], _ => none
  | (k, v) :: rest, key => if k = key then some v else lookupStr rest key

/-- String-keyed record key removal (JavaScript `delete obj[key]`). -/
def eraseStr {β : Type} (l : List (String × β)) (key : String) : List (String × β) :=
  l.filter (fun kv => decide (kv.1 ≠ key))

/-- String-keyed record assignment (JavaScript `obj[key] = v`). -/
def insertStr {β : Type} (l : List (String × β)) (key : String) (v : β) :
    List (String × β) :=
  if (lookupStr l key).isSome then
    l.map (fun kv => if kv.1 = key then (key, v) else kv)
  else l ++ [(key, v)]

/-- The `pendingRequests` record of the handler. -/
abbrev PendingTable := List (String × PendingEntry)

/-- A response message's `data` payload, as a string-keyed record. -/
abbrev MsgData := List (String × String)

/-- A caller-visible settlement of a pending request: the stored `resolve`
called with `data[resultField]`, or the stored `reject` called with an error
message. -/
inductive ReqOutcome where
  | resolved (rid : String) (value : Option String)
  | rejected (rid : String) (msg : String)
  deriving DecidableEq, Repr

/-- The request id a settlement belongs to. -/
def ReqOutcome.rid : ReqOutcome → String
  | .resolved i _ => i
  | .rejected i _ => i

/-- `makeUnityRequest` registration step (line `this.pendingRequests[requestId] = {...}`). -/
def makeUnityRequestRegister (t : PendingTable) (rid reqType resultField : String) :
    PendingTable :=
  insertStr t rid ⟨reqType, resultField⟩

/-- `handleRequestResponse`: reads `message.data?.requestId`; if it is truthy
and present in `pendingRequests`, calls the stored `resolve` (which resolves
the caller with `data[resultField]`) and deletes the entry; otherwise does
nothing. -/
def handleRequestResponse (t : PendingTable) (data : MsgData) :
    PendingTable × Option ReqOutcome :=
  match lookupStr data "requestId" with
  | some rid =>
    if rid ≠ "" then
      match lookupStr t rid with
      | some entry =>
        (eraseStr t rid, some (.resolved rid (lookupStr data entry.resultField)))
      | none => (t, none)
    else (t, none)
  | none => (t, none)

/-- The `setTimeout` callback installed by `makeUnityRequest`: if the entry is
still present it is deleted and the caller rejected with
`Request for (type) timed out`; if the entry is gone the callback is a no-op. -/
def requestTimeoutFire (t : PendingTable) (rid : String) :
    PendingTable × Option ReqOutcome :=
  match lookupStr t rid with
  | some entry =>
    (eraseStr t rid, some (.rejected rid ("Request for " ++ entry.reqType ++ " timed out")))
  | none => (t, none)

/-- The two events that can settle a pending request: an inbound
`sceneInfo`/`gameObjectsDetails` response, or a timeout firing for an id. -/
inductive ReqEvent where
  | response (data : MsgData)
  | timeoutFire (rid : String)
  deriving DecidableEq, Repr

/-- One event processed against the pending table. -/
def reqStep (t : PendingTable) : ReqEvent → PendingTable × Option ReqOutcome
  | .response data => handleRequestResponse t data
  | .timeoutFire rid => requestTimeoutFire t rid

/-- A sequence of events processed against the pending table, collecting every
caller settlement that occurs. -/
def reqRun (t : PendingTable) : List ReqEvent → PendingTable × List ReqOutcome
  | [] => (t, [])
  | e :: es =>
    let s := reqStep t e
    let r := reqRun s.1 es
    (r.1, s.2.toList ++ r.2)

/-- A transport socket handle: its `readyState` and an identifier that
distinguishes distinct sockets. -/
structure WSConn where
  readyState : Nat
  connId : Nat
  deriving DecidableEq, Repr

/-- The `WebSocket.OPEN` ready state. -/
def wsOPEN : Nat := 1

/-- The mutable fields of `WebSocketHandler` that the claims depend on.
`commandResultPromise` holds the caller id of whichever `executeEditorCommand`
call's continuation currently occupies the single slot. -/
structure HandlerState where
  unityConnection : Option WSConn
  connectionEstablished : Bool
  lastHeartbeat : Int
  pendingRequests : PendingTable
  logBuffer : List LogEntry
  commandResultPromise : Option Nat
  deriving DecidableEq, Repr

/-- `handleConnection` (lines 494-534): installs the new socket as
`unityConnection`, marks the connection established and resets the heartbeat.
The returned list records every settlement of a pending request performed by
this code path; `handleConnection` does not touch `pendingRequests`, so the
list is empty. -/
def handleConnection (s : HandlerState) (ws : WSConn) (now : Int) :
    HandlerState × List ReqOutcome :=
  ({ s with unityConnection := some ws, connectionEstablished := true, lastHeartbeat := now },
    [])

/-- `isConnected` (lines 705-709): `connectionEstablished`, with a connection
attached whose `readyState` is `OPEN`. -/
def isConnected (s : HandlerState) : Bool :=
  s.connectionEstablished &&
    (match s.unityConnection with
     | some c => decide (c.readyState = wsOPEN)
     | none => false)

/-- A caller-visible effect of the fire-and-forget command path. -/
inductive CmdAction where
  | sentCommand (code : String)
  | rejectedCaller (caller : Nat) (msg : String)
  deriving DecidableEq, Repr

/-- The synchronous effect of `executeEditorCommand` (lines 606-625) once the
connection wait has passed: sends the command and stores this call's
`resolve`/`reject` pair into the single `commandResultPromise` slot, replacing
whatever was there. The action list records every send and every rejection the
code performs at this point. -/
def executeEditorCommandStart (s : HandlerState) (caller : Nat) (code : String) :
    HandlerState × List CmdAction :=
  ({ s with commandResultPromise := some caller }, [CmdAction.sentCommand code])

/-- The `commandResult` branch of `handleUnityMessage` (lines 567-572):
resolves whichever caller currently occupies `commandResultPromise` and clears
the slot. -/
def handleCommandResult (s : HandlerState) : HandlerState × Option Nat :=
  match s.commandResultPromise with
  | some c => ({ s with commandResultPromise := none }, some c)
  | none => (s, none)

/-- `close` (lines 751-812): terminates the socket and then drops the whole
pending-request table (`this.pendingRequests = ` the empty record) without
settling any entry; the returned list records every settlement performed by
`close` (there are none). -/
def close (s : HandlerState) : HandlerState × List ReqOutcome :=
  ({ s with unityConnection := none, pendingRequests := [] }, [])

/-- A handler state with an open, established connection, an empty pending
table and an empty command slot. -/
def baseState : HandlerState :=
  { unityConnection := some ⟨wsOPEN, 0⟩,
    connectionEstablished := true,
    lastHeartbeat := 0,
    pendingRequests := [],
    logBuffer := [],
    commandResultPromise := none }

/-- `baseState` with one pending correlated request `r1`. -/
def pendingSampleState : HandlerState :=
  { baseState with pendingRequests := [("r1", ⟨"getSceneInfo", "sceneInfo"⟩)] }

/-- A command buffered while the peer is disconnected (`commandEntry` pushed by
the `CallToolRequestSchema` handler): tool name, enqueue time, and the caller
id whose `resolve`/`reject` pair it carries. -/
structure BufferedCommand where
  name : String
  timestamp : Int
  cid : Nat
  deriving DecidableEq, Repr

/-- A caller-visible settlement of a buffered command. -/
inductive CmdOutcome where
  | executed (c : BufferedCommand)
  | rejected (c : BufferedCommand) (msg : String)
  deriving DecidableEq, Repr

/-- `COMMAND_BUFFER_TIMEOUT` (120 seconds, in milliseconds). -/
def COMMAND_BUFFER_TIMEOUT : Int := 120000

/-- The rejection message used when a buffered command times out waiting for
the peer. -/
def bufferTimeoutMsg : String :=
  "Unity Editor connection timed out. Command was buffered for 120 seconds, but Unity did not connect."

/-- The rejection message used by `cleanup` for commands still buffered at
shutdown. -/
def shutdownMsg : String := "Server is shutting down, command aborted"

/-- One iteration of the `processBufferedCommands` loop for a single command:
computes `timeWaited` and `shouldExecute`, then either dispatches the command
(peer connected), rejects it with the buffer-timeout error (deadline passed,
peer absent), or keeps it buffered. Returns the command if it stays in the
buffer, and the settlement it received if any. -/
def processCmd (connected unityJustConnected : Bool) (now : Int) (cmd : BufferedCommand) :
    Option BufferedCommand × Option CmdOutcome :=
  let timeWaited := now - cmd.timestamp
  let shouldExecute := unityJustConnected || decide (COMMAND_BUFFER_TIMEOUT ≤ timeWaited)
  if shouldExecute then
    if connected then (none, some (CmdOutcome.executed cmd))
    else if COMMAND_BUFFER_TIMEOUT ≤ timeWaited then
      (none, some (CmdOutcome.rejected cmd bufferTimeoutMsg))
    else (some cmd, none)
  else (some cmd, none)

/-- `processBufferedCommands` (types.ts lines 155-196): early-returns on an
empty buffer; otherwise walks the buffer, settling or keeping each command,
and replaces the buffer with the kept commands. `connected` is the value of
`wsHandler.isConnected()` during this sweep. -/
def processBufferedCommands (connected unityJustConnected : Bool) (now : Int)
    (commandBuffer : List BufferedCommand) : List BufferedCommand × List CmdOutcome :=
  if commandBuffer.length = 0 then (commandBuffer, [])
  else
    (commandBuffer.filterMap (fun c => (processCmd connected unityJustConnected now c).1),
      commandBuffer.filterMap (fun c => (processCmd connected unityJustConnected now c).2))

/-- `cleanup` (types.ts lines 673-689): rejects every still-buffered command
with the shutdown error and clears the buffer. -/
def cleanup (commandBuffer : List BufferedCommand) : List BufferedCommand × List CmdOutcome :=
  if 0 < commandBuffer.length then
    ([], commandBuffer.map (fun c => CmdOutcome.rejected c shutdownMsg))
  else (commandBuffer, [])

/-- Whether `needle` is a leading segment of the second list. -/
def startsSeg : List Char → List Char → Bool
  | [], _ => true
  | _ :: _, [] => false
  | a :: as, b :: bs => a == b && startsSeg as bs

/-- Whether `needle` occurs contiguously in the list. -/
def hasSegment (needle : List Char) : List Char → Bool
  | [] => startsSeg needle []
  | c :: rest => startsSeg needle (c :: rest) || hasSegment needle rest

/-- JavaScript `s.includes(sub)`: substring containment. -/
def strIncludes (s sub : String) : Bool := hasSegment sub.data s.data

/-- JavaScript `new Date(a) < new Date(b)`: numeric comparison of the parsed
times, false when either side fails to parse (an invalid date compares as
`NaN`). The parse function is a parameter of the embedding. -/
def dateLt (p : String → Option Int) (a b : String) : Bool :=
  match p a, p b with
  | some x, some y => decide (x < y)
  | _, _ => false

/-- JavaScript truthiness of an optional string: present and non-empty. -/
def strTruthy : Option String → Bool
  | some s => decide (s ≠ "")
  | none => false

/-- The options object accepted by `getLogEntries`. -/
structure GetLogOptions where
  types : Option (List String) := none
  count : Option Int := none
  fields : Option (List String) := none
  messageContains : Option String := none
  stackTraceContains : Option String := none
  timestampAfter : Option String := none
  timestampBefore : Option String := none
  deriving DecidableEq, Repr

/-- A log entry after field selection (`Partial LogEntry`): each of the four
fields may be absent. -/
structure PartialLogEntry where
  message : Option String := none
  stackTrace : Option String := none
  logType : Option String := none
  timestamp : Option String := none
  deriving DecidableEq, Repr

/-- A full log entry viewed as a `Partial LogEntry` (all fields present):
the unprojected return shape of `getLogEntries`. -/
def toPartial (log : LogEntry) : PartialLogEntry :=
  { message := some log.message, stackTrace := some log.stackTrace,
    logType := some log.logType, timestamp := some log.timestamp }

/-- The field-selection loop of `getLogEntries`: for each requested field name
that exists on the entry (`field in log`), copy it into the result. -/
def projectEntry (fields : List String) (log : LogEntry) : PartialLogEntry :=
  { message := if fields.contains "message" then some log.message else none,
    stackTrace := if fields.contains "stackTrace" then some log.stackTrace else none,
    logType := if fields.contains "logType" then some log.logType else none,
    timestamp := if fields.contains "timestamp" then some log.timestamp else none }

/-- JavaScript `array.slice(start)` for an integer `start`: a negative start
counts from the end (clamped at 0), a non-negative start drops that many
elements from the front. -/
def jsSliceStart (start : Int) (l : List α) : List α :=
  if start < 0 then l.drop (l.length - (-start).toNat)
  else l.drop (min start.toNat l.length)

/-- The filter callback of `getLogEntries`, with its early returns: each
supplied-and-truthy option that the entry fails excludes it. `o.types` is an
array, hence truthy whenever supplied (even when empty); the string options
are truthy only when non-empty. -/
def logPasses (p : String → Option Int) (o : GetLogOptions) (log : LogEntry) : Bool :=
  if o.types.isSome && !((o.types.getD []).contains log.logType) then false
  else if strTruthy o.messageContains &&
      !(strIncludes log.message (o.messageContains.getD "")) then false
  else if strTruthy o.stackTraceContains &&
      !(strIncludes log.stackTrace (o.stackTraceContains.getD "")) then false
  else if strTruthy o.timestampAfter &&
      dateLt p log.timestamp (o.timestampAfter.getD "") then false
  else if strTruthy o.timestampBefore &&
      dateLt p (o.timestampBefore.getD "") log.timestamp then false
  else true

/-- `getLogEntries`: filter the buffer, apply `slice(-count)` with `count`
defaulting to 100, then apply field selection when `fields` is supplied and
non-empty. -/
def getLogEntries (p : String → Option Int) (o : GetLogOptions)
    (logBuffer : List LogEntry) : List PartialLogEntry :=
  let count : Int := o.count.getD 100
  let filteredLogs := jsSliceStart (-count) (logBuffer.filter (logPasses p o))
  match o.fields with
  | some fs =>
    if fs.length ≠ 0 then filteredLogs.map (projectEntry fs)
    else filteredLogs.map toPartial
  | none => filteredLogs.map toPartial

/-- The per-entry predicate as the spec words it: the conjunction (AND) of
every supplied predicate. Stated from the spec for comparison with the
source-translated `logPasses`. -/
def specPasses (p : String → Option Int) (o : GetLogOptions) (log : LogEntry) : Bool :=
  (match o.types with | some ts => ts.contains log.logType | none => true) &&
  (match o.messageContains with | some s => strIncludes log.message s | none => true) &&
  (match o.stackTraceContains with | some s => strIncludes log.stackTrace s | none => true) &&
  (match o.timestampAfter with | some s => !(dateLt p log.timestamp s) | none => true) &&
  (match o.timestampBefore with | some s => !(dateLt p s log.timestamp) | none => true)

/-- The log query pipeline as the spec words it: all matches of the
conjunction of supplied predicates, then the last `count` (default 100) of
them in arrival order, then projection to the supplied fields (none, or an
empty list of fields, meaning no projection). Stated from the spec for
comparison with the source-translated `getLogEntries`. -/
def specQuery (p : String → Option Int) (o : GetLogOptions) (buf : List LogEntry) :
    List PartialLogEntry :=
  let keptMatches := lastN (o.count.getD 100).toNat (buf.filter (specPasses p o))
  match o.fields with
  | some fs => if fs = [] then keptMatches.map toPartial else keptMatches.map (projectEntry fs)
  | none => keptMatches.map toPartial

/-- A sample log entry used by concrete instantiations. -/
def sampleLog : LogEntry := ⟨"hello", "", "Log", "t0"⟩

/-- The options object with `count: 0` supplied. -/
def countZeroOpts : GetLogOptions := { count := some 0 }

/-- The options object with an empty `types` array supplied. -/
def emptyTypesOpts : GetLogOptions := { types := some [] }

/-! ### Theorems -/

theorem addLogEntry_eq_pushBounded (buffer : List LogEntry) (e : LogEntry) :
    addLogEntry buffer e = pushBounded maxLogBufferSize buffer e := rfl

theorem lastN_of_le {l : List α} {n : Nat} (h : l.length ≤ n) : lastN n l = l := by
  simp [lastN, Nat.sub_eq_zero_of_le h]

theorem lastN_length (n : Nat) (l : List α) : (lastN n l).length = min n l.length := by
  simp [lastN]
  omega

theorem lastN_length_le (n : Nat) (l : List α) : (lastN n l).length ≤ n := by
  rw [lastN_length]
  exact Nat.min_le_left _ _

theorem pushBounded_eq_lastN {n : Nat} {buffer : List α} (e : α)
    (h : buffer.length ≤ n) : pushBounded n buffer e = lastN n (buffer ++ [e]) := by
  unfold pushBounded lastN
  simp only [List.length_append, List.length_singleton]
  by_cases hlt : n < buffer.length + 1
  · have hn : buffer.length = n := by omega
    simp [hlt, hn, ← List.drop_one]
  · have h0 : buffer.length + 1 - n = 0 := by omega
    simp [hlt, h0]

theorem lastN_drop_append (n k : Nat) (l es : List α) (hk : k + n ≤ l.length) :
    lastN n (l.drop k ++ es) = lastN n (l ++ es) := by
  unfold lastN
  rw [← List.drop_append_of_le_length (by omega : k ≤ l.length)]
  rw [List.drop_drop]
  congr 1
  simp [List.length_drop]
  omega

theorem lastN_append_lastN (n : Nat) (l es : List α) :
    lastN n (lastN n l ++ es) = lastN n (l ++ es) := by
  unfold lastN
  by_cases h : l.length ≤ n
  · rw [Nat.sub_eq_zero_of_le h]
    simp
  · have := lastN_drop_append n (l.length - n) l es (by omega)
    unfold lastN at this
    exact this

theorem foldl_pushBounded_eq_lastN (n : Nat) :
    ∀ (es : List α) (acc : List α), acc.length ≤ n →
      List.foldl (pushBounded n) acc es = lastN n (acc ++ es)
  | [], acc, h => by simp [lastN_of_le h]
  | e :: es, acc, h => by
    rw [List.foldl_cons, pushBounded_eq_lastN e h,
      foldl_pushBounded_eq_lastN n es _ (lastN_length_le _ _),
      lastN_append_lastN]
    simp

theorem foldl_addLogEntry_eq_lastN (es : List LogEntry) :
    List.foldl addLogEntry [] es = lastN maxLogBufferSize es := by
  have : addLogEntry = pushBounded maxLogBufferSize := rfl
  rw [this]
  simpa using foldl_pushBounded_eq_lastN maxLogBufferSize es [] (by simp)

/-- C5: appending `n` entries to an initially empty buffer leaves exactly the
most recent `min(n, 1000)` entries in arrival order: the resulting buffer is
the last-1000 suffix of the appended sequence, its length is
`min n maxLogBufferSize`, the bound `length ≤ 1000` holds after every prefix of
the appends, and if at most 1000 entries were appended they are all retained
in order. -/
theorem log_buffer_bounded_fifo (es : List LogEntry) :
    List.foldl addLogEntry [] es = lastN maxLogBufferSize es ∧
    (List.foldl addLogEntry [] es).length = min es.length maxLogBufferSize ∧
    (∀ k, (List.foldl addLogEntry [] (es.take k)).length ≤ maxLogBufferSize) ∧
    (es.length ≤ maxLogBufferSize → List.foldl addLogEntry [] es = es) := by
  refine ⟨foldl_addLogEntry_eq_lastN es, ?_, ?_, ?_⟩
  · rw [foldl_addLogEntry_eq_lastN es, lastN_length, Nat.min_comm]
  · intro k
    rw [foldl_addLogEntry_eq_lastN]
    exact lastN_length_le _ _
  · intro h
    rw [foldl_addLogEntry_eq_lastN]
    exact lastN_of_le h

/-- Witness for `log_buffer_bounded_fifo` at a concrete three-entry sequence. -/
theorem log_buffer_bounded_fifo_witness :
    List.foldl addLogEntry []
        [⟨"a", "", "Log", "t1"⟩, ⟨"b", "", "Log", "t2"⟩, ⟨"c", "", "Log", "t3"⟩] =
      [⟨"a", "", "Log", "t1"⟩, ⟨"b", "", "Log", "t2"⟩, ⟨"c", "", "Log", "t3"⟩] :=
  (log_buffer_bounded_fifo
    [⟨"a", "", "Log", "t1"⟩, ⟨"b", "", "Log", "t2"⟩, ⟨"c", "", "Log", "t3"⟩]).2.2.2
    (by decide)

theorem lookupStr_eraseStr_self {β : Type} (l : List (String × β)) (key : String) :
    lookupStr (eraseStr l key) key = none := by
  induction l with
  | nil => rfl
  | cons kv rest ih =>
    by_cases h : kv.1 = key
    · simpa [eraseStr, h] using ih
    · simpa [eraseStr, lookupStr, h] using ih

theorem lookupStr_eraseStr_ne {β : Type} (l : List (String × β)) {key key' : String}
    (h : key' ≠ key) : lookupStr (eraseStr l key) key' = lookupStr l key' := by
  induction l with
  | nil => rfl
  | cons kv rest ih =>
    by_cases hk : kv.1 = key
    · have hne : ¬ kv.1 = key' := fun hc => h (hc.symm.trans hk)
      have e1 : eraseStr (kv :: rest) key = eraseStr rest key := by
        simp [eraseStr, List.filter_cons, hk]
      rw [e1, ih]
      simp [lookupStr, hne]
    · have e1 : eraseStr (kv :: rest) key = kv :: eraseStr rest key := by
        simp [eraseStr, List.filter_cons, hk]
      rw [e1]
      by_cases hk' : kv.1 = key'
      · simp [lookupStr, hk']
      · simp only [lookupStr, if_neg hk']
        exact ih

/-- Characterization of one settlement step: it either leaves the table
untouched and settles nobody, or it removes exactly one present entry and
settles exactly its caller. -/
theorem reqStep_cases (t : PendingTable) (e : ReqEvent) :
    reqStep t e = (t, none) ∨
    ∃ rid entry o, lookupStr t rid = some entry ∧ o.rid = rid ∧
      reqStep t e = (eraseStr t rid, some o) := by
  cases e with
  | response data =>
    simp only [reqStep, handleRequestResponse]
    cases hd : lookupStr data "requestId" with
    | none => exact Or.inl rfl
    | some rid =>
      by_cases hrid : rid = ""
      · simp [hrid]
      · cases ht : lookupStr t rid with
        | none => simp [hrid, ht]
        | some entry =>
          refine Or.inr ⟨rid, entry,
            .resolved rid (lookupStr data entry.resultField), ht, rfl, ?_⟩
          simp [hrid, ht]
  | timeoutFire rid =>
    simp only [reqStep, requestTimeoutFire]
    cases ht : lookupStr t rid with
    | none => exact Or.inl rfl
    | some entry =>
      exact Or.inr ⟨rid, entry,
        .rejected rid ("Request for " ++ entry.reqType ++ " timed out"), ht, rfl, rfl⟩

theorem reqStep_absent_preserved {t : PendingTable} {rid : String} (e : ReqEvent)
    (h : lookupStr t rid = none) :
    lookupStr (reqStep t e).1 rid = none ∧
      ∀ o, (reqStep t e).2 = some o → o.rid ≠ rid := by
  rcases reqStep_cases t e with hc | ⟨rid', entry, o, hl, ho, hc⟩
  · rw [hc]
    exact ⟨h, by simp⟩
  · have hne : rid ≠ rid' := by
      intro he
      rw [he, hl] at h
      exact Option.noConfusion h
    rw [hc]
    refine ⟨by rw [lookupStr_eraseStr_ne t hne]; exact h, ?_⟩
    intro o' ho'
    have : o' = o := by simpa using ho'.symm
    rw [this, ho]
    exact fun hc' => hne hc'.symm

theorem reqRun_absent {t : PendingTable} {rid : String}
    (h : lookupStr t rid = none) (es : List ReqEvent) :
    (reqRun t es).2.countP (fun o => o.rid == rid) = 0 := by
  induction es generalizing t with
  | nil => simp [reqRun]
  | cons e es ih =>
    obtain ⟨h1, h2⟩ := reqStep_absent_preserved e h
    simp only [reqRun, List.countP_append]
    rw [ih h1]
    cases ho : (reqStep t e).2 with
    | none => simp
    | some o =>
      have := h2 o ho
      simp [List.countP_cons, this]

/-- Across any sequence of response and timeout events, a given request id is
settled at most once. -/
theorem reqRun_settles_at_most_once (t : PendingTable) (es : List ReqEvent)
    (rid : String) :
    (reqRun t es).2.countP (fun o => o.rid == rid) ≤ 1 := by
  induction es generalizing t with
  | nil => simp [reqRun]
  | cons e es ih =>
    simp only [reqRun, List.countP_append]
    cases ho : (reqStep t e).2 with
    | none => simpa using ih (reqStep t e).1
    | some o =>
      by_cases hr : o.rid = rid
      · rcases reqStep_cases t e with hc | ⟨rid', entry, o', hl, ho', hc⟩
        · rw [hc] at ho
          exact Option.noConfusion ho
        · have hoo : o' = o := by
            rw [hc] at ho
            simpa using ho
          have habs : lookupStr (reqStep t e).1 rid = none := by
            rw [hc]
            simp only
            rw [← hr, ← hoo, ho']
            exact lookupStr_eraseStr_self t rid'
          rw [reqRun_absent habs es]
          simp [List.countP_cons, hr]
      · have h0 : (List.countP (fun o => o.rid == rid) (some o).toList) = 0 := by
          simp [List.countP_cons, hr]
        rw [h0]
        simpa using ih (reqStep t e).1

/-- C1: for every correlated request, the pending-table entry is removed
exactly once. A matching response removes the entry and resolves the caller
with the response's designated result field; the timeout callback removes the
entry and rejects the caller; each of the two paths is a no-op when the entry
is already gone (in particular a late response settles nothing and does not
fail); and across any sequence of response and timeout events a given request
id is settled at most once. -/
theorem unity_request_settled_exactly_once
    (t : PendingTable) (rid : String) (entry : PendingEntry) (data : MsgData) :
    (lookupStr t rid = some entry → lookupStr data "requestId" = some rid → rid ≠ "" →
      handleRequestResponse t data =
        (eraseStr t rid,
          some (ReqOutcome.resolved rid (lookupStr data entry.resultField)))) ∧
    (lookupStr t rid = some entry →
      requestTimeoutFire t rid =
        (eraseStr t rid,
          some (ReqOutcome.rejected rid ("Request for " ++ entry.reqType ++ " timed out")))) ∧
    (lookupStr t rid = none → lookupStr data "requestId" = some rid →
      handleRequestResponse t data = (t, none)) ∧
    (lookupStr t rid = none → requestTimeoutFire t rid = (t, none)) ∧
    (∀ events, (reqRun t events).2.countP (fun o => o.rid == rid) ≤ 1) := by
  refine ⟨?_, ?_, ?_, ?_, fun events => reqRun_settles_at_most_once t events rid⟩
  · intro ht hd hrid
    simp [handleRequestResponse, hd, hrid, ht]
  · intro ht
    simp [requestTimeoutFire, ht]
  · intro ht hd
    by_cases hrid : rid = ""
    · simp [handleRequestResponse, hd, hrid]
    · simp [handleRequestResponse, hd, hrid, ht]
  · intro ht
    simp [requestTimeoutFire, ht]

/-- Witness for `unity_request_settled_exactly_once` at a concrete table and
response message. -/
theorem unity_request_settled_exactly_once_witness :
    handleRequestResponse [("r1", PendingEntry.mk "getSceneInfo" "sceneInfo")]
        [("requestId", "r1"), ("sceneInfo", "ok")] =
      (eraseStr [("r1", PendingEntry.mk "getSceneInfo" "sceneInfo")] "r1",
        some (ReqOutcome.resolved "r1"
          (lookupStr [("requestId", "r1"), ("sceneInfo", "ok")] "sceneInfo"))) :=
  (unity_request_settled_exactly_once
      [("r1", PendingEntry.mk "getSceneInfo" "sceneInfo")] "r1"
      (PendingEntry.mk "getSceneInfo" "sceneInfo")
      [("requestId", "r1"), ("sceneInfo", "ok")]).1
    (by decide) (by decide) (by decide)

/-- Counterexample to C2: a second `executeEditorCommand` call made while the
first call's continuation still occupies `commandResultPromise` neither queues
nor is rejected: it overwrites the slot with its own continuation (caller 2),
performs no rejection, and a subsequent `commandResult` resolves caller 2 --
the first caller's stored continuation is silently discarded. -/
theorem execute_command_overwrite_cex :
    ((executeEditorCommandStart (executeEditorCommandStart baseState 1 "cmd1").1 2 "cmd2").1.commandResultPromise
        = some 2) ∧
    ((executeEditorCommandStart (executeEditorCommandStart baseState 1 "cmd1").1 2 "cmd2").2
        = [CmdAction.sentCommand "cmd2"]) ∧
    ((handleCommandResult
        (executeEditorCommandStart (executeEditorCommandStart baseState 1 "cmd1").1 2 "cmd2").1).2
        = some 2) := by
  decide

/-- C2 (amended): a second `executeEditorCommand` call issued while the first
call's continuation is still stored silently overwrites the single
`commandResultPromise` slot: afterwards the slot holds the second caller's
continuation, the only action performed is the send (no rejection of the first
caller), and a subsequent `commandResult` message resolves the second caller. -/
theorem execute_command_slot_overwrite (s : HandlerState) (c1 c2 : Nat)
    (code1 code2 : String) :
    ((executeEditorCommandStart (executeEditorCommandStart s c1 code1).1 c2 code2).1.commandResultPromise
      = some c2) ∧
    ((executeEditorCommandStart (executeEditorCommandStart s c1 code1).1 c2 code2).2
      = [CmdAction.sentCommand code2]) ∧
    ((handleCommandResult
        (executeEditorCommandStart (executeEditorCommandStart s c1 code1).1 c2 code2).1).2
      = some c2) :=
  ⟨rfl, rfl, rfl⟩

/-- Counterexample to C3: a new peer connection arriving while request `r1` is
pending settles nothing (no session-reset rejection), leaves the pending table
unchanged, and a response for `r1` arriving on the new session resolves it. -/
theorem new_connection_no_reset_cex :
    ((handleConnection pendingSampleState ⟨wsOPEN, 1⟩ 50).2 = []) ∧
    ((handleConnection pendingSampleState ⟨wsOPEN, 1⟩ 50).1.pendingRequests
      = [("r1", ⟨"getSceneInfo", "sceneInfo"⟩)]) ∧
    (handleRequestResponse
        (handleConnection pendingSampleState ⟨wsOPEN, 1⟩ 50).1.pendingRequests
        [("requestId", "r1"), ("sceneInfo", "ok")]
      = ([], some (ReqOutcome.resolved "r1" (some "ok")))) := by
  decide

/-- C3 (amended): a new peer connection replaces the transport and resets
liveness but leaves `pendingRequests` untouched and fails none of them; a
request pending against the old session stays pending (failing only by its own
timeout), and a matching response arriving on the new session resolves it. -/
theorem new_connection_keeps_pending (s : HandlerState) (ws : WSConn) (now : Int) :
    ((handleConnection s ws now).1.pendingRequests = s.pendingRequests) ∧
    ((handleConnection s ws now).2 = []) ∧
    ((handleConnection s ws now).1.unityConnection = some ws) ∧
    ((handleConnection s ws now).1.connectionEstablished = true) ∧
    (∀ rid entry data, rid ≠ "" → lookupStr s.pendingRequests rid = some entry →
      lookupStr data "requestId" = some rid →
      handleRequestResponse (handleConnection s ws now).1.pendingRequests data =
        (eraseStr s.pendingRequests rid,
          some (ReqOutcome.resolved rid (lookupStr data entry.resultField)))) := by
  refine ⟨rfl, rfl, rfl, rfl, ?_⟩
  intro rid entry data hrid hl hd
  simp [handleConnection, handleRequestResponse, hd, hrid, hl]

/-- Witness for `new_connection_keeps_pending` at the concrete pending state. -/
theorem new_connection_keeps_pending_witness :
    handleRequestResponse
        (handleConnection pendingSampleState ⟨wsOPEN, 1⟩ 50).1.pendingRequests
        [("requestId", "r1"), ("sceneInfo", "ok")] =
      (eraseStr pendingSampleState.pendingRequests "r1",
        some (ReqOutcome.resolved "r1"
          (lookupStr [("requestId", "r1"), ("sceneInfo", "ok")] "sceneInfo"))) :=
  (new_connection_keeps_pending pendingSampleState ⟨wsOPEN, 1⟩ 50).2.2.2.2 "r1"
    ⟨"getSceneInfo", "sceneInfo"⟩ [("requestId", "r1"), ("sceneInfo", "ok")]
    (by decide) (by decide) (by decide)

/-- Counterexample to C4: in `baseState` the heartbeat is stale by any measure
(`lastHeartbeat = 0`, so at `now = 100000` the gap is well over 60000 ms), yet
`isConnected` returns `true` because it performs no heartbeat-staleness check. -/
theorem is_connected_stale_cex :
    isConnected baseState = true ∧ ¬((100000 : Int) - baseState.lastHeartbeat < 60000) := by
  decide

/-- C4 (amended): `isConnected()` returns true iff the `connectionEstablished`
flag is set AND a transport connection is attached AND its `readyState` is
`OPEN`; it never consults `lastHeartbeat`, so it still returns true when
`now - lastHeartbeat >= 60000`. -/
theorem is_connected_ignores_heartbeat (s : HandlerState) (now : Int) (c : WSConn) :
    (isConnected s = true ↔
      s.connectionEstablished = true ∧
        ∃ conn, s.unityConnection = some conn ∧ conn.readyState = wsOPEN) ∧
    (s.connectionEstablished = true → s.unityConnection = some c →
      c.readyState = wsOPEN → 60000 ≤ now - s.lastHeartbeat → isConnected s = true) := by
  constructor
  · cases hconn : s.unityConnection with
    | none => simp [isConnected, hconn]
    | some conn => simp [isConnected, hconn]
  · intro h1 h2 h3 _
    simp [isConnected, h1, h2, h3]

/-- Witness for `is_connected_ignores_heartbeat`: `baseState` is connected even
with a heartbeat 100000 ms stale. -/
theorem is_connected_ignores_heartbeat_witness : isConnected baseState = true :=
  (is_connected_ignores_heartbeat baseState 100000 ⟨wsOPEN, 0⟩).2
    (by decide) (by decide) (by decide) (by decide)

/-- C7: on a periodic sweep (`unityJustConnected = false`) while the peer is
disconnected, every buffered command whose 120-second deadline has passed is
rejected with the buffer-timeout error (which names the peer never connecting
within the buffer window) and removed: after the sweep every command still
buffered is strictly within its deadline. -/
theorem buffered_command_timeout (now : Int) (commandBuffer : List BufferedCommand)
    (cmd : BufferedCommand) (hmem : cmd ∈ commandBuffer)
    (hwait : COMMAND_BUFFER_TIMEOUT ≤ now - cmd.timestamp) :
    CmdOutcome.rejected cmd bufferTimeoutMsg ∈
      (processBufferedCommands false false now commandBuffer).2 ∧
    ∀ c ∈ (processBufferedCommands false false now commandBuffer).1,
      now - c.timestamp < COMMAND_BUFFER_TIMEOUT := by
  have hne : ¬ commandBuffer.length = 0 := by
    intro h0
    rw [List.length_eq_zero] at h0
    subst h0
    simp at hmem
  constructor
  · simp only [processBufferedCommands, if_neg hne]
    apply List.mem_filterMap.mpr
    exact ⟨cmd, hmem, by simp [processCmd, hwait]⟩
  · intro c hc
    simp only [processBufferedCommands, if_neg hne] at hc
    obtain ⟨a, _, ha⟩ := List.mem_filterMap.mp hc
    by_cases hle : COMMAND_BUFFER_TIMEOUT ≤ now - a.timestamp
    · exfalso
      simp [processCmd, hle] at ha
    · have hac : a = c := by
        simp [processCmd, hle] at ha
        exact ha
      rw [← hac]
      omega

/-- Witness for `buffered_command_timeout`: a command buffered at time 0 is
rejected by the sweep at time 120000. -/
theorem buffered_command_timeout_witness :
    CmdOutcome.rejected ⟨"ping", 0, 3⟩ bufferTimeoutMsg ∈
      (processBufferedCommands false false 120000 [⟨"ping", 0, 3⟩]).2 :=
  (buffered_command_timeout 120000 [⟨"ping", 0, 3⟩] ⟨"ping", 0, 3⟩
    (by decide) (by decide)).1

theorem reqRun_nil_table (events : List ReqEvent) : reqRun [] events = ([], []) := by
  induction events with
  | nil => rfl
  | cons e es ih =>
    have hstep : reqStep ([] : PendingTable) e = ([], none) := by
      cases e with
      | response data =>
        simp only [reqStep, handleRequestResponse]
        cases lookupStr data "requestId" with
        | none => rfl
        | some rid =>
          by_cases hrid : rid = "" <;> simp [hrid, lookupStr]
      | timeoutFire rid => rfl
    simp [reqRun, hstep, ih]

/-- Counterexample to C8: `close` run while request `r1` is pending performs no
settlement, empties the pending table, and the subsequent timeout firing for
`r1` is a no-op (its presence check fails), so the caller of `r1` never
receives an outcome. -/
theorem close_drops_pending_cex :
    ((close pendingSampleState).2 = []) ∧
    ((close pendingSampleState).1.pendingRequests = []) ∧
    (reqRun (close pendingSampleState).1.pendingRequests [ReqEvent.timeoutFire "r1"]
      = ([], [])) := by
  decide

/-- C8 (amended): at shutdown, `cleanup` rejects every still-buffered command
with the "Server is shutting down" error and empties the queue; but `close`
settles no pending correlated request: it clears the pending-request table
without rejecting its entries, and afterwards no response or timeout event can
ever settle them, so those callers never receive an outcome. -/
theorem shutdown_outcomes (commandBuffer : List BufferedCommand)
    (cmd : BufferedCommand) (s : HandlerState) :
    (cmd ∈ commandBuffer →
      CmdOutcome.rejected cmd shutdownMsg ∈ (cleanup commandBuffer).2 ∧
        (cleanup commandBuffer).1 = []) ∧
    ((close s).2 = [] ∧ (close s).1.pendingRequests = [] ∧
      ∀ events, (reqRun (close s).1.pendingRequests events).2 = []) := by
  refine ⟨?_, rfl, rfl, fun events => ?_⟩
  · intro hmem
    have hpos : 0 < commandBuffer.length :=
      List.length_pos.mpr (List.ne_nil_of_mem hmem)
    constructor
    · simp only [cleanup, if_pos hpos]
      exact List.mem_map_of_mem _ hmem
    · simp only [cleanup, if_pos hpos]
  · rw [show (close s).1.pendingRequests = [] from rfl, reqRun_nil_table]

/-- Witness for `shutdown_outcomes` at a concrete one-command buffer. -/
theorem shutdown_outcomes_witness :
    CmdOutcome.rejected ⟨"ping", 0, 7⟩ shutdownMsg ∈ (cleanup [⟨"ping", 0, 7⟩]).2 ∧
    (cleanup [⟨"ping", 0, 7⟩]).1 = [] :=
  (shutdown_outcomes [⟨"ping", 0, 7⟩] ⟨"ping", 0, 7⟩ baseState).1 (by decide)

theorem startsSeg_nil_left (l : List Char) : startsSeg [] l = true := by
  cases l <;> rfl

theorem hasSegment_nil_needle (l : List Char) : hasSegment [] l = true := by
  cases l with
  | nil => rfl
  | cons c rest => simp [hasSegment, startsSeg_nil_left]

theorem strIncludes_empty (s : String) : strIncludes s "" = true :=
  hasSegment_nil_needle s.data

theorem dateLt_empty_right (p : String → Option Int) (hp : p "" = none) (s : String) :
    dateLt p s "" = false := by
  unfold dateLt
  rw [hp]
  cases p s <;> rfl

theorem dateLt_empty_left (p : String → Option Int) (hp : p "" = none) (s : String) :
    dateLt p "" s = false := by
  unfold dateLt
  rw [hp]

theorem if_false_else (c r : Bool) : (if c then false else r) = (!c && r) := by
  cases c <;> simp

theorem logPasses_eq_specPasses (p : String → Option Int) (hp : p "" = none)
    (o : GetLogOptions) (log : LogEntry) :
    logPasses p o log = specPasses p o log := by
  unfold logPasses specPasses
  rw [if_false_else, if_false_else, if_false_else, if_false_else, if_false_else]
  have g1 : (!(o.types.isSome && !((o.types.getD []).contains log.logType)))
      = (match o.types with | some ts => ts.contains log.logType | none => true) := by
    cases o.types <;> simp
  have g2 : (!(strTruthy o.messageContains &&
        !(strIncludes log.message (o.messageContains.getD ""))))
      = (match o.messageContains with
         | some s => strIncludes log.message s
         | none => true) := by
    cases o.messageContains with
    | none => simp [strTruthy]
    | some s =>
      by_cases hs : s = "" <;> simp [strTruthy, hs, strIncludes_empty]
  have g3 : (!(strTruthy o.stackTraceContains &&
        !(strIncludes log.stackTrace (o.stackTraceContains.getD ""))))
      = (match o.stackTraceContains with
         | some s => strIncludes log.stackTrace s
         | none => true) := by
    cases o.stackTraceContains with
    | none => simp [strTruthy]
    | some s =>
      by_cases hs : s = "" <;> simp [strTruthy, hs, strIncludes_empty]
  have g4 : (!(strTruthy o.timestampAfter &&
        dateLt p log.timestamp (o.timestampAfter.getD "")))
      = (match o.timestampAfter with
         | some s => !(dateLt p log.timestamp s)
         | none => true) := by
    cases o.timestampAfter with
    | none => simp [strTruthy]
    | some s =>
      by_cases hs : s = "" <;> simp [strTruthy, hs, dateLt_empty_right p hp]
  have g5 : (!(strTruthy o.timestampBefore &&
        dateLt p (o.timestampBefore.getD "") log.timestamp))
      = (match o.timestampBefore with
         | some s => !(dateLt p s log.timestamp)
         | none => true) := by
    cases o.timestampBefore with
    | none => simp [strTruthy]
    | some s =>
      by_cases hs : s = "" <;> simp [strTruthy, hs, dateLt_empty_left p hp]
  rw [g1, g2, g3, g4, g5]
  simp [Bool.and_assoc]

theorem jsSliceStart_neg_eq_lastN (count : Int) (hc : 1 ≤ count) (l : List α) :
    jsSliceStart (-count) l = lastN count.toNat l := by
  have hneg : -count < 0 := by omega
  simp only [jsSliceStart, if_pos hneg, lastN, neg_neg]

theorem jsSliceStart_zero (l : List α) : jsSliceStart (0 : Int) l = l := by
  simp [jsSliceStart]

theorem jsSliceStart_neg_length (l : List α) : jsSliceStart (-(l.length : Int)) l = l := by
  cases l with
  | nil => simp [jsSliceStart]
  | cons a t =>
    have h : 1 ≤ ((a :: t).length : Int) := by
      exact_mod_cast Nat.succ_le_succ (Nat.zero_le t.length)
    rw [jsSliceStart_neg_eq_lastN _ h, lastN]
    simp

/-- C6: `getLogEntries` computes exactly the spec's query: the buffer filtered
by the conjunction (AND) of every supplied predicate, truncated to the last
`count` (default 100) matches in arrival order, then projected to the supplied
fields when `fields` is supplied and non-empty; with no options supplied it
returns the last 100 entries unfiltered and unprojected; and the projection
keeps a field on the result exactly when it is requested. Hypotheses: the
date parser rejects the empty string (as the JavaScript `Date` constructor
does) and the effective count is at least 1 (the tool schema's minimum). -/
theorem get_log_entries_spec (p : String → Option Int) (o : GetLogOptions)
    (buf : List LogEntry) (hp : p "" = none) (hcount : 1 ≤ o.count.getD 100) :
    getLogEntries p o buf = specQuery p o buf ∧
    getLogEntries p {} buf = (lastN 100 buf).map toPartial ∧
    (∀ fs log,
      ((projectEntry fs log).message
        = if fs.contains "message" then some log.message else none) ∧
      ((projectEntry fs log).stackTrace
        = if fs.contains "stackTrace" then some log.stackTrace else none) ∧
      ((projectEntry fs log).logType
        = if fs.contains "logType" then some log.logType else none) ∧
      ((projectEntry fs log).timestamp
        = if fs.contains "timestamp" then some log.timestamp else none)) := by
  refine ⟨?_, ?_, fun fs log => ⟨rfl, rfl, rfl, rfl⟩⟩
  · have hfun : logPasses p o = specPasses p o :=
      funext (logPasses_eq_specPasses p hp o)
    simp only [getLogEntries, specQuery, hfun,
      jsSliceStart_neg_eq_lastN (o.count.getD 100) hcount]
    cases o.fields with
    | none => rfl
    | some fs =>
      by_cases hfs : fs = []
      · subst hfs
        simp
      · have hlen : fs.length ≠ 0 := fun h0 => hfs (List.length_eq_zero.mp h0)
        simp [hfs, hlen]
  · have hfilter : buf.filter (logPasses p ({} : GetLogOptions)) = buf :=
      List.filter_eq_self.mpr (fun a _ => rfl)
    simp only [getLogEntries, hfilter]
    rw [show (({} : GetLogOptions).count.getD 100 : Int) = 100 from rfl,
      jsSliceStart_neg_eq_lastN 100 (by norm_num)]
    rfl

/-- Witness for `get_log_entries_spec` at a concrete parser, options and
buffer. -/
theorem get_log_entries_spec_witness :
    getLogEntries (fun _ => none) {} [sampleLog]
      = specQuery (fun _ => none) {} [sampleLog] :=
  (get_log_entries_spec (fun _ => none) {} [sampleLog] rfl (by decide)).1

/-- C9: a caller supplying `count = 0` does not get zero entries: since the
truncation is `slice(-count)` and `slice(-0)` is `slice(0)`, the result is
every matching entry, the same as supplying a count equal to (hence at least)
the number of matches. Stated here with no field projection. -/
theorem get_log_entries_count_zero (p : String → Option Int) (o : GetLogOptions)
    (buf : List LogEntry) (h : o.count = some 0) (hf : o.fields = none) :
    getLogEntries p o buf = (buf.filter (logPasses p o)).map toPartial ∧
    getLogEntries p o buf =
      getLogEntries p
        { o with count := some ((buf.filter (logPasses p o)).length : Int) } buf := by
  have h1 : getLogEntries p o buf = (buf.filter (logPasses p o)).map toPartial := by
    simp only [getLogEntries, h, hf, Option.getD_some, neg_zero, jsSliceStart_zero]
  have hpass : logPasses p
      { o with count := some ((buf.filter (logPasses p o)).length : Int) }
      = logPasses p o := rfl
  have h2 : getLogEntries p
      { o with count := some ((buf.filter (logPasses p o)).length : Int) } buf
      = (buf.filter (logPasses p o)).map toPartial := by
    simp only [getLogEntries, hpass]
    rw [hf]
    simp only [Option.getD_some, jsSliceStart_neg_length]
  exact ⟨h1, h1.trans h2.symm⟩

/-- Witness for `get_log_entries_count_zero` at a concrete buffer. -/
theorem get_log_entries_count_zero_witness :
    getLogEntries (fun _ => none) countZeroOpts [sampleLog]
      = ([sampleLog].filter (logPasses (fun _ => none) countZeroOpts)).map toPartial :=
  (get_log_entries_count_zero (fun _ => none) countZeroOpts [sampleLog] rfl rfl).1

/-- C10: supplying an empty `types` array is not treated as "no predicate":
the filter rejects every entry whose type is not a member of the empty array,
so the query returns the empty list for every buffer; omitting `types`
entirely (no options at all) instead returns entries. -/
theorem get_log_entries_empty_types (p : String → Option Int) (o : GetLogOptions)
    (buf : List LogEntry) (h : o.types = some []) :
    getLogEntries p o buf = [] ∧
    getLogEntries p {} [sampleLog] = [toPartial sampleLog] := by
  constructor
  · have hfilter : buf.filter (logPasses p o) = [] := by
      apply List.filter_eq_nil_iff.mpr
      intro a _
      simp [logPasses, h]
    simp only [getLogEntries, hfilter]
    cases o.fields with
    | none => simp [jsSliceStart]
    | some fs =>
      by_cases hfs : fs.length ≠ 0 <;> simp [hfs, jsSliceStart]
  · rfl

/-- Witness for `get_log_entries_empty_types` at a concrete buffer. -/
theorem get_log_entries_empty_types_witness :
    getLogEntries (fun _ => none) emptyTypesOpts [sampleLog] = [] :=
  (get_log_entries_empty_types (fun _ => none) emptyTypesOpts [sampleLog] rfl).1

end UnityMCP

